import Mathlib

/-!
Shallow embedding of the client-side `MediaConverter` class of
fentbuscoding/media-converter (the script concatenated into the repository
sources, `class MediaConverter`).  JavaScript strings are modelled by Lean
`String` via `List Char`, JS numbers by `Int`/`Rat` (`Math.round x` is
Mathlib's `round`, i.e. `⌊x + 1/2⌋`, which agrees with JS `Math.round` on
every real, negatives included), and DOM / FFmpeg.wasm / canvas effects by an
explicit environment record of oracles.  Definitions keep the source's names.
-/

/-- Index of the last `'.'` in a character list (JS `lastIndexOf('.')`,
`none` standing for the JS result `-1`). -/
def lastDotIndex : List Char → Option Nat
  | [] => none
  | c :: cs =>
    match lastDotIndex cs with
    | some i => some (i + 1)
    | none => if c = '.' then some 0 else none

/-- JS `s.substring(0, s.lastIndexOf('.'))`: the part before the last dot.
When the string has no dot, `lastIndexOf` is `-1` and JS `substring` clamps
the negative end to `0`, so the result is the empty string. -/
def jsStripExt (s : String) : String :=
  match lastDotIndex s.data with
  | none => ""
  | some i => ⟨s.data.take i⟩

/-- JS `s.split('.').pop()`: the part after the last dot, or the whole
string when it has no dot. -/
def jsExtPop (s : String) : String :=
  match lastDotIndex s.data with
  | none => s
  | some i => ⟨s.data.drop (i + 1)⟩

/-- JS `s.split(sep)[1]`: the segment between the first separator and the
second (or the end); `none` models the JS value `undefined` when the
separator does not occur. -/
def splitSecond (sep : Char) : List Char → Option (List Char)
  | [] => none
  | c :: cs => if c = sep then some (cs.takeWhile (· ≠ sep)) else splitSecond sep cs

/-- JS `String.prototype.replace` with a *string* pattern: only the first
occurrence is replaced; when the pattern does not occur the string is
returned unchanged. -/
def replaceFirstList (pat rep : List Char) : List Char → List Char
  | [] => if pat = [] then rep else []
  | c :: cs =>
    if pat.isPrefixOf (c :: cs) then rep ++ (c :: cs).drop pat.length
    else c :: replaceFirstList pat rep cs

/-- `replaceFirstList` lifted to `String`. -/
def replaceFirst (s pat rep : String) : String :=
  ⟨replaceFirstList pat.data rep.data s.data⟩

/-- JS `s.toLowerCase()` (ASCII range, which is all the sources use). -/
def jsToLower (s : String) : String := ⟨s.data.map Char.toLower⟩

/-- JS `s.toUpperCase()` (ASCII range). -/
def jsToUpper (s : String) : String := ⟨s.data.map Char.toUpper⟩

/-- JS `s.startsWith(pre)`, as plain list recursion (so that it can be
evaluated inside proofs). -/
def jsStartsWith (s pre : String) : Bool := pre.data.isPrefixOf s.data

/-- JS `String(n).padStart(3, '0')`. -/
def padStart3 (s : String) : String :=
  if 3 ≤ s.length then s else ⟨List.replicate (3 - s.length) '0'⟩ ++ s

/-- A selected browser `File`: `name`, `size`, MIME `type`, and its raw
bytes (the `Blob` content; `size` is the JS `file.size` field). -/
structure MFile where
  name : String
  size : Nat
  type : String
  bytes : List Nat
deriving Repr, DecidableEq

/-- Output width/height pair (the `{width, height}` objects of the script). -/
structure Dim where
  width : Int
  height : Int
deriving Repr, DecidableEq

/-- `MediaConverter.getFileFormat`: prefer the MIME subtype with the alias
map `{jpeg: 'jpg', 'svg+xml': 'svg', 'x-ms-wmv': 'wmv', quicktime: 'mov'}`,
else the lower-cased extension, else `"unknown"`.  The result is `Option`
because `type.split('/')[1]` is `undefined` for a slash-free nonempty MIME
type, in which case the JS function returns `undefined`. -/
def getFileFormat (file : MFile) : Option String :=
  if file.type ≠ "" then
    match splitSecond '/' file.type.data with
    | none => none
    | some sub =>
      let mimeFormat : String := ⟨sub⟩
      let aliased : Option String :=
        if mimeFormat = "jpeg" then some "jpg"
        else if mimeFormat = "svg+xml" then some "svg"
        else if mimeFormat = "x-ms-wmv" then some "wmv"
        else if mimeFormat = "quicktime" then some "mov"
        else none
      some (aliased.getD mimeFormat)
  else
    let extension := jsToLower (jsExtPop file.name)
    some (if extension = "" then "unknown" else extension)

/-- `MediaConverter.getMimeType`: fixed image lookup, defaulting to
`image/png`. -/
def getMimeType (format : String) : String :=
  if format = "png" then "image/png"
  else if format = "jpeg" then "image/jpeg"
  else if format = "webp" then "image/webp"
  else if format = "gif" then "image/gif"
  else if format = "bmp" then "image/bmp"
  else "image/png"

/-- `MediaConverter.getConvertedFileName`: strip the extension of
`originalName` (via `substring(0, lastIndexOf('.'))`, which yields the empty
string when there is no dot) and append `.targetFormat`. -/
def getConvertedFileName (originalName targetFormat : String) : String :=
  jsStripExt originalName ++ "." ++ targetFormat

/-- `Math.round (w / (ow / oh))` under JS number semantics, idealising JS
float division by exact rational division.  Faithful for `0 < ow`: when
`oh = 0` the JS aspect `ow / 0` is `+∞` and the quotient `w / ∞` is `0`,
matching the `0` returned here.  For `ow = 0` the JS quotient is `∞`
(`w > 0`) or `NaN`, which the integer model idealises as `0` (rational
division by zero); no theorem below is stated on that case. -/
def roundDivAspect (w ow oh : Int) : Int :=
  if oh = 0 then 0 else round ((w : ℚ) / ((ow : ℚ) / (oh : ℚ)))

/-- `Math.round (h * (ow / oh))` under the same conventions.  Faithful for
`0 < oh`: in the guard branch `oh = 0` the JS product `h * (ow / 0)` is
`h * ∞ = ∞` for positive `h` and `ow`, which the integer model idealises as
`0`; no theorem below is stated on that case. -/
def roundMulAspect (h ow oh : Int) : Int :=
  if oh = 0 then 0 else round ((h : ℚ) * ((ow : ℚ) / (oh : ℚ)))

/-- The DOM resize inputs read by `calculateResizeDimensions`:
`resizeWidth.value` / `resizeHeight.value` as parsed integers (`none` for an
empty/absent input, matching the JS falsiness of `''`) and the
`lockAspect.checked` flag. -/
structure ResizeInputs where
  resizeWidth : Option Int
  resizeHeight : Option Int
  lockAspect : Bool
deriving Repr, DecidableEq

/-- `MediaConverter.calculateResizeDimensions`.  `width` is
`parseInt(widthInput) || originalWidth` (so a parsed `0` falls back to the
original, `0` being falsy in JS), the first guard tests emptiness of the raw
input strings, and the aspect-locked single-input branches round the derived
dimension with no clamping. -/
def calculateResizeDimensions (inputs : ResizeInputs) (originalWidth originalHeight : Int) :
    Dim :=
  let width : Int :=
    match inputs.resizeWidth with
    | none => originalWidth
    | some n => if n = 0 then originalWidth else n
  let height : Int :=
    match inputs.resizeHeight with
    | none => originalHeight
    | some n => if n = 0 then originalHeight else n
  if inputs.resizeWidth.isNone ∧ inputs.resizeHeight.isNone then
    ⟨originalWidth, originalHeight⟩
  else if inputs.lockAspect then
    if inputs.resizeWidth.isSome ∧ inputs.resizeHeight.isNone then
      ⟨width, roundDivAspect width originalWidth originalHeight⟩
    else if inputs.resizeHeight.isSome ∧ inputs.resizeWidth.isNone then
      ⟨roundMulAspect height originalWidth originalHeight, height⟩
    else ⟨width, height⟩
  else ⟨width, height⟩

/-- The wall-clock values `applyFileNamePattern` reads (`new Date()` /
`Date.now()`), injected as data: the `YYYY-MM-DD` date string, the
`HH-MM-SS` time string (colons already replaced), and the epoch-milliseconds
string. -/
structure WallClock where
  dateStr : String
  timeStr : String
  timestampStr : String
deriving Repr, DecidableEq

/-- `MediaConverter.applyFileNamePattern`: a chain of first-occurrence
string replacements in the source's fixed order. -/
def applyFileNamePattern (clock : WallClock) (pattern originalName : String) (index : Nat) :
    String :=
  let nameWithoutExt := jsStripExt originalName
  let ext := jsExtPop originalName
  replaceFirst
    (replaceFirst
      (replaceFirst
        (replaceFirst
          (replaceFirst
            (replaceFirst
              (replaceFirst pattern "{name}" nameWithoutExt)
              "{index}" (padStart3 (toString (index + 1))))
            "{format}" (jsToLower ext))
          "{original_format}" (jsToLower ext))
        "{date}" clock.dateStr)
      "{time}" clock.timeStr)
    "{timestamp}" clock.timestampStr

/-- The `ffmpegLoaded` / `ffmpegLoading` fields of the converter. -/
structure EngineState where
  ffmpegLoaded : Bool
  ffmpegLoading : Bool
deriving Repr, DecidableEq

/-- Decoded video metadata (`video.videoWidth`, `video.videoHeight`,
`Math.round(video.duration)`), probed from a blob via a `<video>` element. -/
structure VideoMeta where
  width : Int
  height : Int
  duration : Int
deriving Repr, DecidableEq

/-- Outcome of a full FFmpeg transcode of one file: the output blob's bytes
together with the metadata probed from the output blob
(`writeFile`/`exec`/`readFile`/`onloadedmetadata`). -/
structure TranscodeOut where
  bytes : List Nat
  meta : VideoMeta
deriving Repr, DecidableEq

/-- The environment of the converter: every DOM read, wall-clock read and
external asynchronous effect of the script, as deterministic oracles.
`loadSucceeds` is the outcome `ffmpeg.load()` would have; `transcode` is the
combined outcome of a transcode attempt on a file (`none` models a thrown
error or the output probe's `onerror`, both of which the source turns into
`null`); `probeMeta` is the metadata probe of an *original* file (`none`
models the `<video>` element's `onerror`); `decodeImage` is the `<img>` load
(`none` models its `onerror`); `encodeBlob` the canvas draw + encode of a
file at a MIME type, dimensions and optional quality (the filter sliders are
fixed inside this oracle).  `crashAt` injects an orchestrator-level throw
just before file number `k` of the batch loop (modelling a failing DOM call
outside the per-file `try`), exercising `convertMedia`'s outer
`catch`/`finally`. -/
structure Env where
  loadSucceeds : Bool
  transcode : MFile → String → Option TranscodeOut
  probeMeta : MFile → Option VideoMeta
  decodeImage : MFile → Option Dim
  encodeBlob : MFile → String → Dim → Option ℚ → List Nat
  filenamePattern : Option String
  resize : ResizeInputs
  clock : WallClock
  mediaType : String
  formatSelect : String
  videoFormatSelect : String
  qualitySlider : Int
  crashAt : Option Nat

/-- `this.elements.filenamePattern?.value || '{name}'` (an absent element or
empty value falls back to `'{name}'`). -/
def patternOf (env : Env) : String := env.filenamePattern.getD "{name}"

/-- How a `loadFFmpeg` call returned: `immediate b` is the early
`return this.ffmpegLoaded` taken synchronously, before any `await`, when
`ffmpegLoaded || ffmpegLoading` already holds; `performedLoad b` means the
call itself ran the load to completion with outcome `b`. -/
inductive LoadCall where
  | immediate (result : Bool)
  | performedLoad (result : Bool)
deriving Repr, DecidableEq

/-- The boolean the caller receives. -/
def LoadCall.result : LoadCall → Bool
  | .immediate b => b
  | .performedLoad b => b

/-- `MediaConverter.loadFFmpeg`.  If a load already succeeded or is in
flight, return the current `ffmpegLoaded` immediately; otherwise set
`ffmpegLoading`, attempt the load (outcome `env.loadSucceeds`), set
`ffmpegLoaded` on success, and clear `ffmpegLoading` in the `finally`. -/
def loadFFmpeg (env : Env) (st : EngineState) : EngineState × LoadCall :=
  if st.ffmpegLoaded || st.ffmpegLoading then
    (st, .immediate st.ffmpegLoaded)
  else
    (⟨env.loadSucceeds, false⟩, .performedLoad env.loadSucceeds)

/-- Per-file errors: a rejected conversion promise, carrying the file name
(the source's `reject(new Error(...))` paths). -/
inductive ConvError where
  | loadImageFailed (name : String)
  | loadVideoFailed (name : String)
deriving Repr, DecidableEq

/-- A per-file conversion outcome record (the object literals the script
builds; string-formatted display fields are kept structured). -/
structure ConvertedFile where
  name : String
  blob : List Nat
  originalSize : Nat
  convertedSize : Nat
  format : String
  dimensions : Dim
  originalDimensions : Option Dim
  duration : Option Int
  isVideo : Bool
  requiresServerConversion : Bool
deriving Repr, DecidableEq

/-- `MediaConverter.convertSingleImageAsync`: decode the image (rejecting on
`onerror`), compute output dimensions, draw with filters, encode at the
target MIME type (quality passed only for `jpeg`/`webp`), apply the filename
pattern and build the result record. -/
def convertSingleImageAsync (env : Env) (file : MFile) (targetFormat : String) (quality : ℚ)
    (index : Nat) : Except ConvError ConvertedFile :=
  match env.decodeImage file with
  | none => .error (.loadImageFailed file.name)
  | some natural =>
    let dimensions := calculateResizeDimensions env.resize natural.width natural.height
    let fileName := applyFileNamePattern env.clock (patternOf env) file.name index
    let mimeType := getMimeType targetFormat
    let q : Option ℚ := if targetFormat = "jpeg" ∨ targetFormat = "webp" then some quality else none
    let blob := env.encodeBlob file mimeType dimensions q
    .ok { name := getConvertedFileName fileName targetFormat
          blob := blob
          originalSize := file.size
          convertedSize := blob.length
          format := jsToUpper targetFormat
          dimensions := dimensions
          originalDimensions := some natural
          duration := none
          isVideo := false
          requiresServerConversion := false }

/-- What one `convertVideoWithFFmpeg` call did: the engine state afterwards,
its return value (`none` is the JS `null` used to trigger the fallback), and
how many times it invoked `ffmpeg.exec` (the transcode operation). -/
structure FFmpegCall where
  state : EngineState
  result : Option ConvertedFile
  execCalls : Nat
deriving Repr, DecidableEq

/-- `MediaConverter.convertVideoWithFFmpeg`: lazily load the engine
(returning `null` if that fails), write the input, `exec` the transcode,
read the output and probe its metadata; any failure yields `null`.
A failed transcode attempt is modelled as failing at or after `exec`
(`execCalls = 1`); only the success path's count matters to the claims. -/
def convertVideoWithFFmpeg (env : Env) (st : EngineState) (file : MFile)
    (targetFormat : String) (index : Nat) : FFmpegCall :=
  let loaded : EngineState × Bool :=
    if !st.ffmpegLoaded then
      let r := loadFFmpeg env st
      (r.1, r.2.result)
    else (st, true)
  if !loaded.2 then ⟨loaded.1, none, 0⟩
  else
    match env.transcode file targetFormat with
    | none => ⟨loaded.1, none, 1⟩
    | some out =>
      let fileName := applyFileNamePattern env.clock (patternOf env) file.name index
      ⟨loaded.1,
        some { name := getConvertedFileName fileName targetFormat
               blob := out.bytes
               originalSize := file.size
               convertedSize := out.bytes.length
               format := jsToUpper targetFormat
               dimensions := ⟨out.meta.width, out.meta.height⟩
               originalDimensions := none
               duration := some out.meta.duration
               isVideo := true
               requiresServerConversion := false },
        1⟩

/-- What a `convertSingleVideoAsync` call produced: the engine state, the
settled promise (`.ok none` is the JS path that *returns* `null`), and the
total number of `ffmpeg.exec` invocations it caused. -/
structure VideoCall where
  state : EngineState
  outcome : Except ConvError (Option ConvertedFile)
  execCalls : Nat
deriving Repr

/-- `MediaConverter.convertSingleVideoAsync`: first
`if (await this.convertVideoWithFFmpeg(...))` — and, when that is truthy,
`return await this.convertVideoWithFFmpeg(...)` **again**; otherwise the
rename-only fallback probes the original file's metadata and returns a
passthrough record with `requiresServerConversion = true` (rejecting if the
probe fails). -/
def convertSingleVideoAsync (env : Env) (st : EngineState) (file : MFile)
    (targetFormat : String) (index : Nat) : VideoCall :=
  let first := convertVideoWithFFmpeg env st file targetFormat index
  match first.result with
  | some _ =>
    let second := convertVideoWithFFmpeg env first.state file targetFormat index
    ⟨second.state, .ok second.result, first.execCalls + second.execCalls⟩
  | none =>
    match env.probeMeta file with
    | none => ⟨first.state, .error (.loadVideoFailed file.name), first.execCalls⟩
    | some meta =>
      let fileName := applyFileNamePattern env.clock (patternOf env) file.name index
      ⟨first.state,
        .ok (some { name := getConvertedFileName fileName targetFormat
                    blob := file.bytes
                    originalSize := file.size
                    convertedSize := file.size
                    format := jsToUpper targetFormat
                    dimensions := ⟨meta.width, meta.height⟩
                    originalDimensions := none
                    duration := some meta.duration
                    isVideo := true
                    requiresServerConversion := true }),
        first.execCalls⟩

/-- The accumulator of `convertMedia`'s batch loop: the threaded engine
state, `this.convertedMedia`, and the two counters. -/
structure LoopState where
  engine : EngineState
  results : List ConvertedFile
  successCount : Nat
  failureCount : Nat
deriving Repr

/-- One iteration of `convertMedia`'s `for` loop body for `file` at index
`i`: dispatch on the MIME category; inside the per-file `try`, a truthy
`convertedMedia` is pushed and counted as a success, a thrown error is
counted as a failure, and a falsy `convertedMedia` (a file that is neither
image nor video, or a video call returning `null`) touches neither list nor
counter. -/
def processFile (env : Env) (format : String) (quality : ℚ) (ls : LoopState) (file : MFile)
    (i : Nat) : LoopState :=
  if jsStartsWith file.type "image/" then
    match convertSingleImageAsync env file format quality i with
    | .ok r =>
      { ls with results := ls.results ++ [r], successCount := ls.successCount + 1 }
    | .error _ => { ls with failureCount := ls.failureCount + 1 }
  else if jsStartsWith file.type "video/" then
    let v := convertSingleVideoAsync env ls.engine file format i
    match v.outcome with
    | .ok (some r) =>
      { engine := v.state
        results := ls.results ++ [r]
        successCount := ls.successCount + 1
        failureCount := ls.failureCount }
    | .ok none => { ls with engine := v.state }
    | .error _ => { ls with engine := v.state, failureCount := ls.failureCount + 1 }
  else ls

/-- `convertMedia`'s `for` loop over the remaining files, `i` being the index
of the first of them.  The boolean is `true` when `env.crashAt` injected an
orchestrator-level throw before that file, aborting the loop (the partial
`results` pushed so far remain, as `this.convertedMedia` is mutated in
place). -/
def runLoop (env : Env) (format : String) (quality : ℚ) :
    List MFile → Nat → LoopState → LoopState × Bool
  | [], _, ls => (ls, false)
  | file :: files, i, ls =>
    if env.crashAt = some i then (ls, true)
    else runLoop env format quality files (i + 1) (processFile env format quality ls file i)

/-- The modelled mutable state of the converter object that `convertMedia`
touches, plus the convert button's `disabled` flag
(`setConvertButtonState`). -/
structure ConverterState where
  selectedFiles : List MFile
  convertedMedia : List ConvertedFile
  isConverting : Bool
  convertBtnDisabled : Bool
  engine : EngineState
deriving Repr

/-- How a `convertMedia` call ended: rejected by one of the two entry
guards, completed with the final counters, or aborted by an
orchestrator-level error (caught by the outer `catch`). -/
inductive BatchOutcome where
  | rejectedNoFiles
  | rejectedAlreadyRunning
  | completed (successCount failureCount : Nat)
  | crashed
deriving Repr, DecidableEq

/-- `MediaConverter.convertMedia`: the two entry guards (`selectedFiles`
emptiness, then the `isConverting` reentrancy guard, each an early return
with no state change); then `isConverting := true`, the format/quality
reads, the up-front `loadFFmpeg` when the batch holds a video and the engine
is not yet loaded, `convertedMedia := []`, the sequential loop, and the
`finally` that clears `isConverting` and re-enables the convert button on
every exit path. -/
def convertMedia (env : Env) (st : ConverterState) : ConverterState × BatchOutcome :=
  if st.selectedFiles.length = 0 then (st, .rejectedNoFiles)
  else if st.isConverting then (st, .rejectedAlreadyRunning)
  else
    let format :=
      if env.mediaType = "video" then env.videoFormatSelect else env.formatSelect
    let quality : ℚ := (env.qualitySlider : ℚ) / 100
    let hasVideoFiles := st.selectedFiles.any (fun f => jsStartsWith f.type "video/")
    let engine1 :=
      if hasVideoFiles && !st.engine.ffmpegLoaded then (loadFFmpeg env st.engine).1
      else st.engine
    let start : LoopState := ⟨engine1, [], 0, 0⟩
    let r := runLoop env format quality st.selectedFiles 0 start
    let final : ConverterState :=
      { selectedFiles := st.selectedFiles
        convertedMedia := r.1.results
        isConverting := false
        convertBtnDisabled := false
        engine := r.1.engine }
    (final, if r.2 then .crashed else .completed r.1.successCount r.1.failureCount)

/-- `processFiles`' validation filter: only files whose MIME type is in the
image or video category ever enter `this.selectedFiles`. -/
def mediaFilter (files : List MFile) : List MFile :=
  files.filter (fun f => jsStartsWith f.type "image/" || jsStartsWith f.type "video/")

/-! Concrete fixtures used to instantiate the theorems below. -/

/-- A fixed wall clock: 2026-10-11, noon. -/
def exClock : WallClock := ⟨"2026-10-11", "12-00-00", "1760184000000"⟩

/-- A sample image file. -/
def exImg : MFile := ⟨"photo.jpeg", 100, "image/jpeg", [9, 9]⟩

/-- A sample video file. -/
def exVid : MFile := ⟨"clip.avi", 77, "video/x-msvideo", [7, 7, 7]⟩

/-- An environment in which the engine loads and every transcode succeeds. -/
def exEnv : Env :=
  { loadSucceeds := true
    transcode := fun _ _ => some ⟨[5, 5], ⟨320, 240, 3⟩⟩
    probeMeta := fun _ => some ⟨640, 480, 10⟩
    decodeImage := fun _ => some ⟨1920, 1080⟩
    encodeBlob := fun _ _ _ _ => [1, 2, 3]
    filenamePattern := none
    resize := ⟨none, none, false⟩
    clock := exClock
    mediaType := "image"
    formatSelect := "png"
    videoFormatSelect := "mp4"
    qualitySlider := 85
    crashAt := none }

/-- The same environment with the engine load failing (and hence no
successful transcode). -/
def exEnvNoEngine : Env := { exEnv with loadSucceeds := false, transcode := fun _ _ => none }

/-- The same environment with an orchestrator-level throw injected before
the first file of the loop. -/
def exEnvCrash : Env := { exEnv with crashAt := some 0 }

/-- An idle converter with one image and one video selected. -/
def exState : ConverterState := ⟨[exImg, exVid], [], false, false, ⟨false, false⟩⟩

/-! Helper lemmas. -/

/-- The two boolean counts of a list of optional results add up to its
length. -/
theorem countP_isSome_add_not (l : List (Option ConvertedFile)) :
    l.countP Option.isSome + l.countP (fun o => !o.isSome) = l.length := by
  induction l with
  | nil => simp
  | cons o t ih =>
    cases o <;> simp [List.countP_cons, ← ih] <;> omega

/-- C3: a `convertMedia` call issued while a previous run is still in
progress (`isConverting = true`, with a nonempty selection, as any running
batch has) is rejected immediately with the "already in progress"
notification and performs no state change at all: the returned state is the
input state, so results, counters, selected files and engine state are
untouched. -/
theorem convertMedia_reentrancy_guard (env : Env) (st : ConverterState)
    (hrun : st.isConverting = true) (hne : st.selectedFiles ≠ []) :
    convertMedia env st = (st, .rejectedAlreadyRunning) := by
  have hlen : ¬ st.selectedFiles.length = 0 := by
    simpa [List.length_eq_zero] using hne
  simp [convertMedia, hrun, hlen]

/-- Witness for C3: a concrete running converter rejects a second call
unchanged. -/
theorem convertMedia_reentrancy_guard_witness :
    convertMedia exEnv { exState with isConverting := true } =
      ({ exState with isConverting := true }, .rejectedAlreadyRunning) :=
  convertMedia_reentrancy_guard exEnv { exState with isConverting := true } rfl (by simp [exState])

/-- C10: every `convertMedia` run that passes the entry guards — whether its
loop completes normally or an orchestrator-level error aborts it mid-batch
(any `env.crashAt`) — ends with `isConverting = false` and the convert
button re-enabled, because both resets live in the `finally` clause. -/
theorem convertMedia_always_resets (env : Env) (st : ConverterState)
    (hne : st.selectedFiles ≠ []) (hidle : st.isConverting = false) :
    (convertMedia env st).1.isConverting = false ∧
    (convertMedia env st).1.convertBtnDisabled = false := by
  have hlen : ¬ st.selectedFiles.length = 0 := by
    simpa [List.length_eq_zero] using hne
  simp [convertMedia, hlen, hidle]

/-- Witness for C10: a batch aborted by a mid-batch error (crash injected
before file 0) still ends un-stuck, with the flag cleared and the button
re-enabled. -/
theorem convertMedia_always_resets_witness :
    (convertMedia exEnvCrash exState).1.isConverting = false ∧
    (convertMedia exEnvCrash exState).1.convertBtnDisabled = false :=
  convertMedia_always_resets exEnvCrash exState (by simp [exState]) rfl

/-- C5 (code bug): `loadFFmpeg` started from idle performs the load, and
here the in-flight load is destined to succeed (`.performedLoad true`); but
a second call arriving while `ffmpegLoading = true` takes the synchronous
early return `.immediate false` — it returns *before* the in-flight load
has resolved, with the stale `ffmpegLoaded` value, instead of awaiting the
load's outcome. -/
theorem loadFFmpeg_inflight_returns_stale :
    loadFFmpeg exEnv ⟨false, false⟩ = (⟨true, false⟩, .performedLoad true) ∧
    loadFFmpeg exEnv ⟨false, true⟩ = (⟨false, true⟩, .immediate false) :=
  ⟨rfl, rfl⟩

/-- C4 (code bug): with the engine loaded and the transcode succeeding, one
`convertSingleVideoAsync` call performs the engine transcode (`ffmpeg.exec`)
twice — once for the truthiness test and once for the returned value. -/
theorem convertSingleVideoAsync_double_exec :
    (convertSingleVideoAsync exEnv ⟨true, false⟩ exVid "mp4" 0).execCalls = 2 ∧
    (convertSingleVideoAsync exEnv ⟨true, false⟩ exVid "mp4" 0).outcome =
      .ok ((convertVideoWithFFmpeg exEnv ⟨true, false⟩ exVid "mp4" 0).result) :=
  ⟨rfl, rfl⟩

/-- C6 (code bug): `applyFileNamePattern` itself expands the tokens exactly
as claimed (`"vacation_005_2026-10-11"` for index 4), but the caller
`getConvertedFileName` then strips everything up to the *last dot* of that
patterned name — which has none — so the final converted name is `".png"`,
not `"vacation_005_2026-10-11.png"`. -/
theorem getConvertedFileName_pattern_example :
    applyFileNamePattern exClock "{name}_{index}_{date}" "vacation.png" 4 =
      "vacation_005_2026-10-11" ∧
    getConvertedFileName
        (applyFileNamePattern exClock "{name}_{index}_{date}" "vacation.png" 4) "png" =
      ".png" :=
  ⟨rfl, rfl⟩

/-- C7 counterexample: with aspect lock on, target width `1` and an original
`4 × 1` image, `calculateResizeDimensions` returns height `0` — the claimed
"never 0, clamp to minimum 1" fails on the code. -/
theorem calculateResizeDimensions_zero_cex :
    calculateResizeDimensions ⟨some 1, none, true⟩ 4 1 = ⟨1, 0⟩ ∧
    ¬ 0 < (calculateResizeDimensions ⟨some 1, none, true⟩ 4 1).height := by
  constructor
  · simp [calculateResizeDimensions, roundDivAspect]
    norm_num [round_eq]
  · simp [calculateResizeDimensions, roundDivAspect]
    norm_num [round_eq]

/-- C7 (amended): for every resize input over a decoded original with
positive dimensions (the faithful domain of the JS arithmetic) and
nonnegative target inputs, `calculateResizeDimensions` raises no exception
(it is a total function) and returns rounded integer dimensions that are
nonnegative — but there is no clamp to a minimum of 1: an aspect-locked
derived dimension can round to 0 (the counterexample above). -/
theorem calculateResizeDimensions_nonneg (inputs : ResizeInputs) (ow oh : Int)
    (howpos : 0 < ow) (hohpos : 0 < oh)
    (hw : ∀ n ∈ inputs.resizeWidth, 0 ≤ n) (hh : ∀ n ∈ inputs.resizeHeight, 0 ≤ n) :
    0 ≤ (calculateResizeDimensions inputs ow oh).width ∧
    0 ≤ (calculateResizeDimensions inputs ow oh).height := by
  have how : (0 : Int) ≤ ow := le_of_lt howpos
  have hoh : (0 : Int) ≤ oh := le_of_lt hohpos
  obtain ⟨wIn, hIn, lock⟩ := inputs
  have hwidth : 0 ≤ (match wIn with
      | none => ow
      | some n => if n = 0 then ow else n) := by
    cases wIn with
    | none => exact how
    | some n =>
      by_cases hn : n = 0
      · simp [hn, how]
      · simpa [hn] using hw n rfl
  have hheight : 0 ≤ (match hIn with
      | none => oh
      | some n => if n = 0 then oh else n) := by
    cases hIn with
    | none => exact hoh
    | some n =>
      by_cases hn : n = 0
      · simp [hn, hoh]
      · simpa [hn] using hh n rfl
  have hdiv : ∀ w : Int, 0 ≤ w → 0 ≤ roundDivAspect w ow oh := by
    intro w hw0
    unfold roundDivAspect
    split
    · exact le_refl 0
    · rw [round_eq]
      refine Int.floor_nonneg.2 ?_
      have : (0 : ℚ) ≤ (w : ℚ) / ((ow : ℚ) / (oh : ℚ)) := by
        apply div_nonneg
        · exact_mod_cast hw0
        · apply div_nonneg <;> exact_mod_cast ‹_›
      linarith
  have hmul : ∀ h : Int, 0 ≤ h → 0 ≤ roundMulAspect h ow oh := by
    intro h hh0
    unfold roundMulAspect
    split
    · exact le_refl 0
    · rw [round_eq]
      refine Int.floor_nonneg.2 ?_
      have : (0 : ℚ) ≤ (h : ℚ) * ((ow : ℚ) / (oh : ℚ)) := by
        apply mul_nonneg
        · exact_mod_cast hh0
        · apply div_nonneg <;> exact_mod_cast ‹_›
      linarith
  unfold calculateResizeDimensions
  dsimp only
  split
  · exact ⟨how, hoh⟩
  · split
    · split
      · exact ⟨hwidth, hdiv _ hwidth⟩
      · split
        · exact ⟨hmul _ hheight, hheight⟩
        · exact ⟨hwidth, hheight⟩
    · exact ⟨hwidth, hheight⟩

/-- Witness for the amended C7 theorem at a concrete aspect-locked input. -/
theorem calculateResizeDimensions_nonneg_witness :
    0 ≤ (calculateResizeDimensions ⟨some 400, none, true⟩ 1000 500).width ∧
    0 ≤ (calculateResizeDimensions ⟨some 400, none, true⟩ 1000 500).height :=
  calculateResizeDimensions_nonneg ⟨some 400, none, true⟩ 1000 500 (by norm_num) (by norm_num)
    (by intro n hn; simp at hn; omega) (by intro n hn; simp at hn)

/-- C8: with aspect lock on and exactly one positive target dimension given,
`calculateResizeDimensions` keeps the given dimension and derives the other
from the original aspect ratio: height `= round (w / (ow / oh))` when only
the width is given, and width `= round (h * (ow / oh))` when only the height
is given. -/
theorem calculateResizeDimensions_aspect_lock (wIn hIn : Option Int) (ow oh w h : Int)
    (_how : 0 < ow) (hoh : 0 < oh) :
    (wIn = some w → hIn = none → 0 < w →
      calculateResizeDimensions ⟨wIn, hIn, true⟩ ow oh =
        ⟨w, round ((w : ℚ) / ((ow : ℚ) / (oh : ℚ)))⟩) ∧
    (hIn = some h → wIn = none → 0 < h →
      calculateResizeDimensions ⟨wIn, hIn, true⟩ ow oh =
        ⟨round ((h : ℚ) * ((ow : ℚ) / (oh : ℚ))), h⟩) := by
  constructor
  · intro hwi hhi hpos
    subst hwi; subst hhi
    have hw0 : ¬ w = 0 := by omega
    have hoh0 : ¬ oh = 0 := by omega
    simp [calculateResizeDimensions, roundDivAspect, hw0, hoh0]
  · intro hhi hwi hpos
    subst hwi; subst hhi
    have hh0 : ¬ h = 0 := by omega
    have hoh0 : ¬ oh = 0 := by omega
    simp [calculateResizeDimensions, roundMulAspect, hh0, hoh0]

/-- Witness for C8: the spec's own example,
`computeDimensions(1000, 500, targetW = 400, aspectLocked) = (400, 200)`. -/
theorem calculateResizeDimensions_aspect_lock_witness :
    calculateResizeDimensions ⟨some 400, none, true⟩ 1000 500 = ⟨400, 200⟩ := by
  have h :=
    (calculateResizeDimensions_aspect_lock (some 400) none 1000 500 400 1
        (by norm_num) (by norm_num)).1 rfl rfl (by norm_num)
  rw [h]
  norm_num [round_eq]

/-- C9 counterexample: a file whose MIME type is `image/jpeg` resolves to
`"jpg"`, not the claimed canonical `"jpeg"` — the alias table *does* map
jpeg to jpg. -/
theorem getFileFormat_jpeg_cex :
    getFileFormat exImg = some "jpg" ∧ exImg.type = "image/jpeg" ∧
    getFileFormat exImg ≠ some "jpeg" := by
  refine ⟨rfl, rfl, ?_⟩
  decide

/-- C9 (amended): `getFileFormat` returns the lowercase identifier derived
from the MIME subtype with the alias table jpeg→jpg, svg+xml→svg,
x-ms-wmv→wmv, quicktime→mov (so `image/jpeg` resolves to `"jpg"`); with no
MIME type it falls back to the lower-cased filename extension, and when that
is empty too it returns `"unknown"`. -/
theorem getFileFormat_resolution (f : MFile) :
    (f.type = "image/jpeg" → getFileFormat f = some "jpg") ∧
    (f.type = "image/svg+xml" → getFileFormat f = some "svg") ∧
    (f.type = "video/x-ms-wmv" → getFileFormat f = some "wmv") ∧
    (f.type = "video/quicktime" → getFileFormat f = some "mov") ∧
    (f.type = "image/png" → getFileFormat f = some "png") ∧
    (f.type = "" → f.name = "CLIP.MOV" → getFileFormat f = some "mov") ∧
    (f.type = "" → f.name = "archive" → getFileFormat f = some "archive") ∧
    (f.type = "" → f.name = "" → getFileFormat f = some "unknown") := by
  obtain ⟨nm, sz, ty, bs⟩ := f
  refine ⟨?_, ?_, ?_, ?_, ?_, ?_, ?_, ?_⟩ <;> intro h
  · subst h; rfl
  · subst h; rfl
  · subst h; rfl
  · subst h; rfl
  · subst h; rfl
  · intro h2; subst h; subst h2; rfl
  · intro h2; subst h; subst h2; rfl
  · intro h2; subst h; subst h2; rfl

/-- Witness for the amended C9 theorem: the jpeg alias at a concrete file. -/
theorem getFileFormat_resolution_witness :
    getFileFormat ⟨"photo.jpeg", 100, "image/jpeg", [9, 9]⟩ = some "jpg" :=
  (getFileFormat_resolution ⟨"photo.jpeg", 100, "image/jpeg", [9, 9]⟩).1 rfl

/-- C2: when the engine is not loaded and its load fails, a video
conversion takes the fallback path: the settled result's blob is the
unaltered input bytes, `convertedSize = originalSize = file.size`, the
dimensions and duration are the ones probed from the *original* file, and
`requiresServerConversion = true`; moreover the engine remains unloaded, so
every video file of the batch takes this same path. -/
theorem convertSingleVideoAsync_fallback (env : Env) (st : EngineState) (file : MFile)
    (fmt : String) (i : Nat) (meta : VideoMeta)
    (hload : env.loadSucceeds = false) (hst : st.ffmpegLoaded = false)
    (hprobe : env.probeMeta file = some meta) :
    (convertSingleVideoAsync env st file fmt i).outcome =
      .ok (some
        { name :=
            getConvertedFileName (applyFileNamePattern env.clock (patternOf env) file.name i) fmt
          blob := file.bytes
          originalSize := file.size
          convertedSize := file.size
          format := jsToUpper fmt
          dimensions := ⟨meta.width, meta.height⟩
          originalDimensions := none
          duration := some meta.duration
          isVideo := true
          requiresServerConversion := true }) ∧
    (convertSingleVideoAsync env st file fmt i).state.ffmpegLoaded = false := by
  obtain ⟨l, g⟩ := st
  simp only at hst
  subst hst
  cases g <;>
    simp [convertSingleVideoAsync, convertVideoWithFFmpeg, loadFFmpeg, LoadCall.result, hload,
      hprobe]

/-- Witness for C2 at a concrete failing-engine environment and video
file. -/
theorem convertSingleVideoAsync_fallback_witness :
    (convertSingleVideoAsync exEnvNoEngine ⟨false, false⟩ exVid "mp4" 0).outcome =
      .ok (some
        { name :=
            getConvertedFileName
              (applyFileNamePattern exEnvNoEngine.clock (patternOf exEnvNoEngine) exVid.name 0)
              "mp4"
          blob := exVid.bytes
          originalSize := exVid.size
          convertedSize := exVid.size
          format := jsToUpper "mp4"
          dimensions := ⟨640, 480⟩
          originalDimensions := none
          duration := some 10
          isVideo := true
          requiresServerConversion := true }) ∧
    (convertSingleVideoAsync exEnvNoEngine ⟨false, false⟩ exVid "mp4" 0).state.ffmpegLoaded =
      false :=
  convertSingleVideoAsync_fallback exEnvNoEngine ⟨false, false⟩ exVid "mp4" 0 ⟨640, 480, 10⟩
    rfl rfl rfl

/-- A `convertVideoWithFFmpeg` call only returns a (truthy) record when the
engine ended up loaded and the transcode oracle succeeds. -/
theorem convertVideoWithFFmpeg_result_isSome (env : Env) (st : EngineState) (file : MFile)
    (fmt : String) (i : Nat)
    (h : ((convertVideoWithFFmpeg env st file fmt i).result).isSome = true) :
    (convertVideoWithFFmpeg env st file fmt i).state.ffmpegLoaded = true ∧
    (env.transcode file fmt).isSome = true := by
  obtain ⟨l, g⟩ := st
  cases l <;> cases g <;> cases htr : env.transcode file fmt <;>
    cases hls : env.loadSucceeds <;>
    simp_all [convertVideoWithFFmpeg, loadFFmpeg, LoadCall.result]

/-- Conversely, with the engine loaded and the transcode oracle succeeding,
`convertVideoWithFFmpeg` returns a record. -/
theorem convertVideoWithFFmpeg_loaded_isSome (env : Env) (st : EngineState) (file : MFile)
    (fmt : String) (i : Nat) (h1 : st.ffmpegLoaded = true)
    (h2 : (env.transcode file fmt).isSome = true) :
    ((convertVideoWithFFmpeg env st file fmt i).result).isSome = true := by
  obtain ⟨l, g⟩ := st
  simp only at h1
  subst h1
  cases htr : env.transcode file fmt <;>
    simp_all [convertVideoWithFFmpeg, loadFFmpeg, LoadCall.result]

/-- `convertSingleVideoAsync` never settles with the JS value `null`: when
the deterministic transcode oracle made the first probe call truthy, the
repeated call returns a record again, and the fallback path either resolves
with a record or rejects. -/
theorem convertSingleVideoAsync_ne_ok_none (env : Env) (st : EngineState) (file : MFile)
    (fmt : String) (i : Nat) :
    (convertSingleVideoAsync env st file fmt i).outcome ≠ .ok none := by
  unfold convertSingleVideoAsync
  cases hfr : (convertVideoWithFFmpeg env st file fmt i).result with
  | none =>
    cases hp : env.probeMeta file <;> simp [hfr, hp]
  | some r =>
    have h := convertVideoWithFFmpeg_result_isSome env st file fmt i (by simp [hfr])
    have h2 :=
      convertVideoWithFFmpeg_loaded_isSome env (convertVideoWithFFmpeg env st file fmt i).state
        file fmt i h.1 h.2
    cases hsr :
        (convertVideoWithFFmpeg env (convertVideoWithFFmpeg env st file fmt i).state
            file fmt i).result with
    | none => rw [hsr] at h2; simp at h2
    | some r2 => simp [hfr, hsr]

/-- One loop body on a media file yields exactly one outcome: either a
success that appends exactly one record and bumps `successCount`, or a
failure that bumps `failureCount` and leaves the results untouched. -/
theorem processFile_step (env : Env) (format : String) (q : ℚ) (ls : LoopState) (file : MFile)
    (i : Nat) (hmedia : jsStartsWith file.type "image/" ∨ jsStartsWith file.type "video/") :
    ∃ o : Option ConvertedFile,
      (processFile env format q ls file i).results = ls.results ++ o.toList ∧
      (processFile env format q ls file i).successCount =
        ls.successCount + (if o.isSome then 1 else 0) ∧
      (processFile env format q ls file i).failureCount =
        ls.failureCount + (if o.isSome then 0 else 1) := by
  by_cases himg : jsStartsWith file.type "image/"
  · cases hic : convertSingleImageAsync env file format q i with
    | ok r => exact ⟨some r, by simp [processFile, himg, hic]⟩
    | error e => exact ⟨none, by simp [processFile, himg, hic]⟩
  · have hvid : jsStartsWith file.type "video/" := hmedia.resolve_left himg
    cases hoc : (convertSingleVideoAsync env ls.engine file format i).outcome with
    | ok r =>
      cases r with
      | none => exact absurd hoc (convertSingleVideoAsync_ne_ok_none env ls.engine file format i)
      | some r => exact ⟨some r, by simp [processFile, himg, hvid, hoc]⟩
    | error e => exact ⟨none, by simp [processFile, himg, hvid, hoc]⟩

/-- The batch loop over media files, with no orchestrator-level crash,
produces one outcome per file: outcomes are in input order, successes are
the appended results, and the counters count the two kinds. -/
theorem runLoop_outcomes (env : Env) (format : String) (q : ℚ)
    (hcrash : env.crashAt = none) :
    ∀ (files : List MFile) (i : Nat) (ls : LoopState),
      (∀ f ∈ files, jsStartsWith f.type "image/" ∨ jsStartsWith f.type "video/") →
      ∃ outcomes : List (Option ConvertedFile),
        outcomes.length = files.length ∧
        (runLoop env format q files i ls).2 = false ∧
        (runLoop env format q files i ls).1.results =
          ls.results ++ outcomes.filterMap id ∧
        (runLoop env format q files i ls).1.successCount =
          ls.successCount + outcomes.countP Option.isSome ∧
        (runLoop env format q files i ls).1.failureCount =
          ls.failureCount + outcomes.countP (fun o => !o.isSome) := by
  intro files
  induction files with
  | nil =>
    intro i ls _
    exact ⟨[], by simp [runLoop]⟩
  | cons f fs ih =>
    intro i ls hmedia
    have hstep : runLoop env format q (f :: fs) i ls =
        runLoop env format q fs (i + 1) (processFile env format q ls f i) := by
      simp [runLoop, hcrash]
    obtain ⟨o, hres, hsc, hfc⟩ :=
      processFile_step env format q ls f i (hmedia f (List.mem_cons_self f fs))
    obtain ⟨outs, hlen', hcr', hres', hsc', hfc'⟩ :=
      ih (i + 1) (processFile env format q ls f i)
        (fun g hg => hmedia g (List.mem_cons_of_mem f hg))
    refine ⟨o :: outs, ?_, ?_, ?_, ?_, ?_⟩
    · simp [hlen']
    · rw [hstep]; exact hcr'
    · rw [hstep, hres', hres]
      cases o <;> simp
    · rw [hstep, hsc', hsc, List.countP_cons]
      cases o <;> simp <;> omega
    · rw [hstep, hfc', hfc, List.countP_cons]
      cases o <;> simp <;> omega

/-- C1: a `convertMedia` batch over N selected media files that starts from
idle and suffers no orchestrator-level crash processes them sequentially in
input order and produces exactly N per-file outcomes (`some` a result, or
`none` for a logged failure): `successCount + failureCount = N`, the final
`convertedMedia` list is exactly the successful results in input order, and
per-file failures never abort the batch (the run still reports
`completed`). -/
theorem convertMedia_batch_outcomes (env : Env) (st : ConverterState)
    (hne : st.selectedFiles ≠ []) (hidle : st.isConverting = false)
    (hcrash : env.crashAt = none)
    (hmedia : ∀ f ∈ st.selectedFiles,
      jsStartsWith f.type "image/" ∨ jsStartsWith f.type "video/") :
    ∃ outcomes : List (Option ConvertedFile),
      outcomes.length = st.selectedFiles.length ∧
      (convertMedia env st).1.convertedMedia = outcomes.filterMap id ∧
      (convertMedia env st).2 =
        .completed (outcomes.countP Option.isSome) (outcomes.countP fun o => !o.isSome) ∧
      outcomes.countP Option.isSome + outcomes.countP (fun o => !o.isSome) =
        st.selectedFiles.length := by
  have hlen : ¬ st.selectedFiles.length = 0 := by
    simpa [List.length_eq_zero] using hne
  obtain ⟨outs, hl, hcr, hres, hsc, hfc⟩ :=
    runLoop_outcomes env
      (if env.mediaType = "video" then env.videoFormatSelect else env.formatSelect)
      ((env.qualitySlider : ℚ) / 100) hcrash st.selectedFiles 0
      ⟨if st.selectedFiles.any (fun f => jsStartsWith f.type "video/")
            && !st.engine.ffmpegLoaded then
          (loadFFmpeg env st.engine).1
        else st.engine, [], 0, 0⟩
      hmedia
  refine ⟨outs, hl, ?_, ?_, ?_⟩
  · simp only [convertMedia, hlen, hidle, if_false, Bool.false_eq_true]
    simpa using hres
  · simp only [convertMedia, hlen, hidle, if_false, Bool.false_eq_true]
    rw [hcr, hsc, hfc]
    simp
  · rw [← hl]
    exact countP_isSome_add_not outs

/-- Witness for C1: a concrete two-file batch (one image, one video). -/
theorem convertMedia_batch_outcomes_witness :
    ∃ outcomes : List (Option ConvertedFile),
      outcomes.length = exState.selectedFiles.length ∧
      (convertMedia exEnv exState).1.convertedMedia = outcomes.filterMap id ∧
      (convertMedia exEnv exState).2 =
        .completed (outcomes.countP Option.isSome) (outcomes.countP fun o => !o.isSome) ∧
      outcomes.countP Option.isSome + outcomes.countP (fun o => !o.isSome) =
        exState.selectedFiles.length :=
  convertMedia_batch_outcomes exEnv exState (by simp [exState]) rfl rfl (by decide)
